import Mathlib

set_option maxHeartbeats 1000000

/-! Verification of the Hooter event bus (src/Hooter.js) against its
natural-language specification. The dynamic values the bus inspects are
embedded as `JVal`, hook stores and the wildcard matcher (whose sources,
src/HookStore.js and the wildcard-match dependency, are not part of the
sources at hand) are modelled from the spec, and the methods of the
Hooter class are translated line by line from src/Hooter.js. -/

/-- Dynamic values, restricted to what the event bus inspects: undefined,
null, booleans, numbers, strings and callables (callables are opaque tokens
drawn from a parameter type `F`). -/
inductive JVal (F : Type) : Type where
  | undef
  | nullv
  | boolv (b : Bool)
  | numv (n : Int)
  | strv (s : String)
  | funv (f : F)
deriving DecidableEq, Repr

variable {F : Type}

/-- Truthiness of a dynamic value: undefined, null, false, zero and the
empty string are falsy, everything else is truthy. -/
def truthy : JVal F → Bool
  | .undef => false
  | .nullv => false
  | .boolv b => b
  | .numv n => n != 0
  | .strv s => s != ""
  | .funv _ => true

/-- Whether a dynamic value is a string. -/
def isStr : JVal F → Bool
  | .strv _ => true
  | _ => false

/-- Whether a dynamic value is callable. -/
def isFun : JVal F → Bool
  | .funv _ => true
  | _ => false

/-- The string carried by a dynamic value known to be a string. -/
def strOf : JVal F → String
  | .strv s => s
  | _ => ""

/-- Embeds the MODES constant of src/Hooter.js (line 6). -/
def MODES : List String := ["auto", "asIs", "sync", "async"]

/-- Embeds the includes check on the mode list: only a string equal to one
of the four recognized mode strings passes. -/
def modeOk : JVal F → Bool
  | .strv s => MODES.contains s
  | _ => false

/-- Error outcomes of the bus methods: a TypeError or a plain Error,
carrying the message. -/
inductive Err : Type where
  | typeError (msg : String)
  | error (msg : String)
deriving DecidableEq, Repr

/-- Modelled from the spec: segmentation of a string at the separator
character, as the split of the wildcard-match dependency does it (the
accumulator holds the characters of the current segment, reversed). -/
def splitSegAux : List Char → List Char → List String
  | [], acc => [String.mk acc.reverse]
  | c :: cs, acc =>
    if c = '.' then String.mk acc.reverse :: splitSegAux cs []
    else splitSegAux cs (c :: acc)

/-- Modelled from the spec: a type or pattern split into its dot-separated
segments. -/
def splitSeg (s : String) : List String := splitSegAux s.data []

/-- Modelled from the spec: the segment matcher of the wildcard-match
dependency, whose source is not part of this repository. A literal pattern
segment must match the type segment exactly, a star matches exactly one
segment, and a double star matches zero or more segments at its position
(here: some suffix of the remaining type segments matches the rest of the
pattern). -/
def segMatch : List String → List String → Bool
  | [], ts => ts.isEmpty
  | p :: ps, ts =>
    if p = "**" then (ts.tails).any (fun ts2 => segMatch ps ts2)
    else
      match ts with
      | [] => false
      | t :: ts2 => (p = "*" || p = t) && segMatch ps ts2

/-- Modelled from the spec: the match method of src/Hooter.js (lines 18 to
20) delegates to the wildcard-match dependency with separator dot; per the
spec it is used asymmetrically, the first argument being the concrete event
type and the second the stored pattern. -/
def hooterMatch (a b : String) : Bool := segMatch (splitSeg b) (splitSeg a)

/-- Modelled from the spec: a hook record of src/HookStore.js (whose source
is not under src): a unique id handle, the registered pattern and the hook
function. -/
structure Hook (F : Type) : Type where
  id : Nat
  pattern : String
  fn : F
deriving DecidableEq, Repr

/-- Modelled from the spec: the state of a HookStore of src/HookStore.js
(whose source is not under src): an ordered list of hooks, the flag for
reverse-insertion retrieval order, and a counter for fresh ids. -/
structure HookStore (F : Type) : Type where
  hooks : List (Hook F)
  reversed : Bool
  nextId : Nat
deriving DecidableEq, Repr

/-- Modelled from the spec: an empty hook store with the given ordering
flag, as the Hooter constructor creates them. -/
def HookStore.empty (rev : Bool) : HookStore F := ⟨[], rev, 0⟩

/-- Modelled from the spec: put validates the pattern, appends the hook and
returns a fresh id handle together with the new store state. -/
def HookStore.put (s : HookStore F) (pat : String) (fn : F) :
    Except Err (Nat × HookStore F) :=
  if pat = "" then .error (.typeError "A pattern must be a non-empty string")
  else .ok (s.nextId, ⟨s.hooks ++ [⟨s.nextId, pat, fn⟩], s.reversed, s.nextId + 1⟩)

/-- Modelled from the spec: get returns every stored hook whose pattern
matches the event type, in insertion order, reversed when the store was
created with the reverse flag. -/
def HookStore.get (s : HookStore F) (t : String) : List (Hook F) :=
  let r := s.hooks.filter (fun h => hooterMatch t h.pattern)
  if s.reversed then r.reverse else r

/-- Modelled from the spec: del removes the hook with the given id if
present, and is a silent no-op otherwise. -/
def HookStore.del (s : HookStore F) (id : Nat) : HookStore F :=
  ⟨s.hooks.filter (fun h => h.id != id), s.reversed, s.nextId⟩

/-- Embeds the event envelope (the createEvent shape of src/Hooter.js):
type, mode, positional arguments and callback slot, each a dynamic value
(an absent callback is undefined). -/
structure EventObj (F : Type) : Type where
  type : JVal F
  mode : JVal F
  args : List (JVal F)
  cb : JVal F
deriving DecidableEq, Repr

/-- The argument passed to next: either a value that is not an object, or
an event object. -/
inductive NextInput (F : Type) : Type where
  | nonObj (v : JVal F)
  | obj (e : EventObj F)
deriving DecidableEq, Repr

/-- One entry of the combined invocation list built by next: a hook
function bound to the event as its execution context, or the raw callback
value pushed as the final entry. -/
inductive Handler (F : Type) : Type where
  | bound (fn : F) (ctx : EventObj F)
  | plain (v : JVal F)
deriving DecidableEq, Repr

/-- The observable effect of an accepted emission: the envelope broadcast
to the subscribers of the terminal bus, and the call made to the
sequencing capability, recorded as the resolved mode, the invocation list
and the arguments (none when the list was empty). -/
structure Outcome (F : Type) : Type where
  broadcast : Option (EventObj F)
  callSeq : Option (String × List (Handler F) × List (JVal F))
deriving DecidableEq, Repr

/-- Embeds the state of a Hooter instance of src/Hooter.js: the three hook
stores, the registered-events map, the optional type rewrite of a derived
instance (its underscore-named rewrite field) and the optional source bus
it delegates to. -/
inductive Bus (F : Type) : Type where
  | mk (hookStoreBefore hookStore hookStoreAfter : HookStore F)
       (events : List (String × String))
       (pfx : Option String)
       (source : Option (Bus F))

/-- The before-phase store of a bus. -/
def Bus.hookStoreBefore : Bus F → HookStore F
  | .mk a _ _ _ _ _ => a

/-- The main-phase store of a bus. -/
def Bus.hookStore : Bus F → HookStore F
  | .mk _ a _ _ _ _ => a

/-- The after-phase store of a bus. -/
def Bus.hookStoreAfter : Bus F → HookStore F
  | .mk _ _ a _ _ _ => a

/-- The registered-events map of a bus, keyed by event type. -/
def Bus.events : Bus F → List (String × String)
  | .mk _ _ _ a _ _ => a

/-- The optional type rewrite of a derived bus. -/
def Bus.pfxOf : Bus F → Option String
  | .mk _ _ _ _ a _ => a

/-- The optional source bus a derived instance delegates to. -/
def Bus.source : Bus F → Option (Bus F)
  | .mk _ _ _ _ _ a => a

/-- The same bus with its registered-events map replaced (the one mutation
register performs). -/
def Bus.withEvents : Bus F → List (String × String) → Bus F
  | .mk bf mn af _ pfx src, ev => .mk bf mn af ev pfx src

/-- Embeds the Hooter constructor (lines 9 to 16): three fresh stores, the
after store with reverse ordering, an empty registry, no type rewrite and
no source. -/
def Hooter.init (F : Type) : Bus F :=
  .mk (HookStore.empty false) (HookStore.empty false) (HookStore.empty true)
    [] none none

/-- Embeds lift (lines 22 to 34): a fresh instance of the same class whose
source is this bus. -/
def Bus.lift (b : Bus F) : Bus F :=
  .mk (HookStore.empty false) (HookStore.empty false) (HookStore.empty true)
    [] none (some b)

/-- The lifted instance with its type rewrite set, as the prefix method
does on the instance it returns. -/
def Bus.withPfx : Bus F → String → Bus F
  | .mk bf mn af ev _ src, p => .mk bf mn af ev (some p) src

/-- Embeds the prefix method (lines 220 to 228): a TypeError for a
non-string argument, otherwise a lifted instance carrying the rewrite. -/
def Bus.prefixed (b : Bus F) (p : JVal F) : Except Err (Bus F) :=
  match p with
  | .strv s => .ok ((b.lift).withPfx s)
  | _ => .error (.typeError "A prefix must be a string")

/-- Embeds unhook (lines 87 to 91): delete the handle from all three
stores unconditionally. -/
def Bus.unhook : Bus F → Nat → Bus F
  | .mk bf mn af ev pfx src, id =>
    .mk (bf.del id) (mn.del id) (af.del id) ev pfx src

/-- Embeds register (lines 204 to 218). The JS method throws and leaves
the instance as it was, so the model returns the state (unchanged on
failure) together with the optional error. -/
def Bus.register (b : Bus F) (eventType mode : JVal F) : Bus F × Option Err :=
  match eventType with
  | .strv s =>
    if s = "" then (b, some (.error "An event type must be a non-empty string"))
    else
      match (Bus.events b).lookup s with
      | some _ => (b, some (.error ("Event \"" ++ s ++ "\" is already registered")))
      | none =>
        if modeOk mode then (b.withEvents (Bus.events b ++ [(s, strOf mode)]), none)
        else (b, some (.error "A mode must be one of the following:"))
  | _ => (b, some (.error "An event type must be a non-empty string"))

/-- Embeds next (lines 93 to 142): envelope validation, the type rewrite
of a derived instance on a shallow copy (line 112 is a truthiness test, so
an absent rewrite field and the empty-string rewrite both skip the copy
and the rewrite), delegation to the source, and locally the broadcast plus
the combined before, main, after invocation list (each hook bound to the
event, the callback appended last) handed to the sequencing capability
together with the arguments. -/
def Bus.next : Bus F → NextInput F → Except Err (Outcome F)
  | _, .nonObj _ => .error (.typeError "An event must be an object")
  | .mk bf mn af _ pfx src, .obj e =>
    match e.type with
    | .strv t =>
      if modeOk e.mode then
        if truthy e.cb && !(isFun e.cb) then
          .error (.typeError "An event callback must be a function")
        else
          let e2 := match pfx with
            | some p => if p = "" then e else { e with type := .strv (p ++ "." ++ t) }
            | none => e
          match src with
          | some s => Bus.next s (.obj e2)
          | none =>
            let t2 := strOf e2.type
            let handlers :=
              (bf.get t2 ++ mn.get t2 ++ af.get t2).map
                (fun h => Handler.bound h.fn e2)
            let handlers2 :=
              if truthy e2.cb then handlers ++ [Handler.plain e2.cb] else handlers
            if handlers2.isEmpty then .ok { broadcast := some e2, callSeq := none }
            else .ok { broadcast := some e2,
                       callSeq := some (strOf e.mode, handlers2, e2.args) }
      else
        .error (.error "An event mode must be either \"auto\", asIs\", \"sync\" or \"async\"")
    | _ => .error (.typeError "An event type must be a string")

/-- Embeds createEvent (lines 240 to 249): build the envelope, attaching
the callback only when one was given. -/
def createEvent (ty md : String) (args : List (JVal F)) (cb : Option F) :
    EventObj F :=
  { type := .strv ty, mode := .strv md, args := args,
    cb := match cb with | some f => .funv f | none => .undef }

/-- Truthiness of the optional mode argument of the private toot helper
(null is falsy, and so is the empty string). -/
def optTruthy : Option String → Bool
  | some s => s != ""
  | none => false

/-- Embeds the private toot helper (lines 144 to 162): a registered event
must not be tooted with a truthy custom mode and otherwise uses its
registered mode; an unregistered one falls back to auto when the supplied
mode is falsy. -/
def Bus.tootCore (b : Bus F) (eventType : String) (mode : Option String)
    (args : List (JVal F)) (cb : Option F) : Except Err (Outcome F) :=
  match (Bus.events b).lookup eventType with
  | some rm =>
    if optTruthy mode then
      .error (.error ("Event \"" ++ eventType ++
        "\" is a registered event and should not be tooted with a custom mode"))
    else b.next (.obj (createEvent eventType rm args cb))
  | none =>
    let m := match mode with
      | some s => if s = "" then "auto" else s
      | none => "auto"
    b.next (.obj (createEvent eventType m args cb))

/-- Embeds toot (lines 164 to 166): emit with no custom mode and no
callback. -/
def Bus.toot (b : Bus F) (eventType : String) (args : List (JVal F)) :
    Except Err (Outcome F) :=
  b.tootCore eventType none args none


/-- Declarative segment-wildcard rule, stated in the words of the spec. -/
inductive SegMatches : List String → List String → Prop where
  | nil : SegMatches [] []
  | lit (t : String) (ps ts : List String) : t ≠ "*" → t ≠ "**" →
      SegMatches ps ts → SegMatches (t :: ps) (t :: ts)
  | one (t : String) (ps ts : List String) : SegMatches ps ts →
      SegMatches ("*" :: ps) (t :: ts)
  | many (ps pre rest : List String) : SegMatches ps rest →
      SegMatches ("**" :: ps) (pre ++ rest)

theorem segMatch_sound : ∀ ps ts, segMatch ps ts = true → SegMatches ps ts := by
  intro ps
  induction ps with
  | nil =>
    intro ts h
    simp only [segMatch, List.isEmpty_iff] at h
    subst h
    exact SegMatches.nil
  | cons p ps ih =>
    intro ts h
    by_cases hp : p = "**"
    · subst hp
      simp only [segMatch, if_pos rfl] at h
      obtain ⟨ts2, hmem, hm⟩ := List.any_eq_true.mp h
      obtain ⟨pre, hpre⟩ := (List.mem_tails _ _).mp hmem
      rw [← hpre]
      exact SegMatches.many ps pre ts2 (ih ts2 hm)
    · cases ts with
      | nil => simp [segMatch, hp] at h
      | cons t ts2 =>
        simp only [segMatch, if_neg hp, Bool.and_eq_true, Bool.or_eq_true,
          decide_eq_true_eq] at h
        obtain ⟨hor, hrest⟩ := h
        by_cases hps : p = "*"
        · subst hps
          exact SegMatches.one t ps ts2 (ih ts2 hrest)
        · have heq : p = t := by
            rcases hor with h | h
            · exact absurd h hps
            · exact h
          subst heq
          exact SegMatches.lit p ps ts2 hps hp (ih ts2 hrest)

theorem segMatch_complete : ∀ {ps ts}, SegMatches ps ts → segMatch ps ts = true := by
  intro ps ts h
  induction h with
  | nil => rfl
  | lit t ps ts h1 h2 _ ih => simp [segMatch, h2, h1, ih]
  | one t ps ts _ ih => simp [segMatch, ih]
  | many ps pre rest _ ih =>
    simp only [segMatch, if_pos rfl]
    exact List.any_eq_true.mpr ⟨rest, ((List.mem_tails _ _).mpr (List.suffix_append pre rest)), ih⟩

theorem hooterMatch_iff (t pat : String) :
    hooterMatch t pat = true ↔ SegMatches (splitSeg pat) (splitSeg t) :=
  ⟨segMatch_sound _ _, segMatch_complete⟩

theorem mem_get_iff (s : HookStore F) (t : String) (h : Hook F) :
    h ∈ s.get t ↔ h ∈ s.hooks ∧ hooterMatch t h.pattern = true := by
  unfold HookStore.get
  cases s.reversed <;> simp [List.mem_filter]

/-- C4: the pattern matcher implements the segment-wildcard rule, and hook
lookup returns exactly the hooks whose pattern matches the type. -/
theorem C4_segment_wildcard_matching :
    (∀ ps ts, segMatch ps ts = true ↔ SegMatches ps ts) ∧
    (∀ t : String, hooterMatch t "**" = true) ∧
    (hooterMatch "user.created" "user.*" = true ∧
      hooterMatch "user.created.v2" "user.*" = false ∧
      hooterMatch "order.created" "user.*" = false) ∧
    (∀ (s : HookStore Unit) (t : String) (h : Hook Unit),
      h ∈ s.get t ↔ h ∈ s.hooks ∧ hooterMatch t h.pattern = true) := by
  refine ⟨fun ps ts => ⟨segMatch_sound ps ts, segMatch_complete⟩, ?_, ?_, mem_get_iff⟩
  · intro t
    show segMatch ["**"] (splitSeg t) = true
    simp only [segMatch, if_pos rfl]
    exact List.any_eq_true.mpr
      ⟨[], (List.mem_tails _ _).mpr List.nil_suffix, rfl⟩
  · exact ⟨by decide, by decide, by decide⟩

theorem filter_idem (l : List (Hook F)) (p : Hook F → Bool) :
    (l.filter p).filter p = l.filter p := by
  induction l with
  | nil => rfl
  | cons a l ih =>
    by_cases h : p a = true
    · simp [List.filter_cons, h, ih]
    · simp [List.filter_cons, h, ih]

theorem del_idem (s : HookStore F) (id : Nat) : (s.del id).del id = s.del id := by
  unfold HookStore.del
  simp [filter_idem]

/-- C9: unhook removes the handle from all three stores, the hook is absent
from every later lookup in every phase, and a second unhook is a no-op. -/
theorem C9_unhook_removes_everywhere (b : Bus F) (id : Nat) :
    ((b.unhook id).hookStoreBefore = b.hookStoreBefore.del id ∧
      (b.unhook id).hookStore = b.hookStore.del id ∧
      (b.unhook id).hookStoreAfter = b.hookStoreAfter.del id) ∧
    (∀ t h, h ∈ (b.unhook id).hookStoreBefore.get t → h.id ≠ id) ∧
    (∀ t h, h ∈ (b.unhook id).hookStore.get t → h.id ≠ id) ∧
    (∀ t h, h ∈ (b.unhook id).hookStoreAfter.get t → h.id ≠ id) ∧
    (b.unhook id).unhook id = b.unhook id := by
  obtain ⟨bf, mn, af, ev, pfx, src⟩ := b
  refine ⟨⟨rfl, rfl, rfl⟩, ?_, ?_, ?_, ?_⟩
  · intro t h hm
    have := (mem_get_iff _ _ _).mp hm
    have hmem := this.1
    simp only [Bus.unhook, Bus.hookStoreBefore, HookStore.del, List.mem_filter,
      bne_iff_ne, ne_eq, decide_eq_true_eq] at hmem
    simpa using hmem.2
  · intro t h hm
    have := (mem_get_iff _ _ _).mp hm
    have hmem := this.1
    simp only [Bus.unhook, Bus.hookStore, HookStore.del, List.mem_filter,
      bne_iff_ne, ne_eq, decide_eq_true_eq] at hmem
    simpa using hmem.2
  · intro t h hm
    have := (mem_get_iff _ _ _).mp hm
    have hmem := this.1
    simp only [Bus.unhook, Bus.hookStoreAfter, HookStore.del, List.mem_filter,
      bne_iff_ne, ne_eq, decide_eq_true_eq] at hmem
    simpa using hmem.2
  · simp [Bus.unhook, del_idem]

def busW9 : Bus Unit :=
  .mk ⟨[⟨0, "a", ()⟩, ⟨1, "a", ()⟩], false, 2⟩ (HookStore.empty false)
    (HookStore.empty true) [] none none

theorem C9_unhook_removes_everywhere_witness :
    (⟨1, "a", ()⟩ : Hook Unit).id ≠ 0 ∧
      (busW9.unhook 0).unhook 0 = busW9.unhook 0 :=
  ⟨(C9_unhook_removes_everywhere busW9 0).2.1 "a" ⟨1, "a", ()⟩ (by decide),
    (C9_unhook_removes_everywhere busW9 0).2.2.2.2⟩

/-- C5 counterexample: a callback that is present (not undefined) but falsy
and not callable, here the number zero, passes the validation of next
(line 108 of the source tests cb truthiness, not presence) and the
emission completes, so the claim that every present non-callable cb fails
with a TypeError is false. -/
theorem C5_falsy_cb_counterexample :
    Bus.next (Hooter.init Unit)
        (.obj { type := .strv "a", mode := .strv "auto", args := [], cb := .numv 0 }) =
      .ok { broadcast :=
              some { type := .strv "a", mode := .strv "auto", args := [],
                     cb := .numv 0 },
            callSeq := none } ∧
      isFun (F := Unit) (.numv 0) = false ∧
      (JVal.numv 0 : JVal Unit) ≠ .undef :=
  ⟨rfl, rfl, by decide⟩

/-- C5 (amended): next validates the envelope shape, in the fixed order of
the source, before any broadcast or hook effect; the callback check fires
only for a truthy non-callable cb — a present but falsy non-callable cb
(zero, the empty string, false, null) is accepted and later ignored. -/
theorem C5_next_validation (b : Bus F) (e : EventObj F) (v : JVal F) :
    (Bus.next b (.nonObj v) = .error (.typeError "An event must be an object")) ∧
    (isStr e.type = false →
      Bus.next b (.obj e) = .error (.typeError "An event type must be a string")) ∧
    (isStr e.type = true → modeOk e.mode = false →
      Bus.next b (.obj e) =
        .error (.error "An event mode must be either \"auto\", asIs\", \"sync\" or \"async\"")) ∧
    (isStr e.type = true → modeOk e.mode = true → truthy e.cb = true →
      isFun e.cb = false →
      Bus.next b (.obj e) = .error (.typeError "An event callback must be a function")) := by
  obtain ⟨bf, mn, af, ev, pfx, src⟩ := b
  refine ⟨rfl, ?_, ?_, ?_⟩
  · intro ht
    cases hty : e.type <;> simp [hty, isStr] at ht ⊢ <;> simp [Bus.next, hty]
  · intro ht hm
    cases hty : e.type <;> simp [hty, isStr] at ht
    simp [Bus.next, hty, hm]
  · intro ht hm hcb hfn
    cases hty : e.type <;> simp [hty, isStr] at ht
    simp [Bus.next, hty, hm, hcb, hfn]

theorem C5_next_validation_witness :
    Bus.next (Hooter.init Unit) (.nonObj (.numv 3)) =
        .error (.typeError "An event must be an object") ∧
      Bus.next (Hooter.init Unit)
          (.obj { type := .numv 1, mode := .strv "auto", args := [], cb := .undef }) =
        .error (.typeError "An event type must be a string") ∧
      Bus.next (Hooter.init Unit)
          (.obj { type := .strv "a", mode := .strv "bad", args := [], cb := .undef }) =
        .error (.error "An event mode must be either \"auto\", asIs\", \"sync\" or \"async\"") ∧
      Bus.next (Hooter.init Unit)
          (.obj { type := .strv "a", mode := .strv "auto", args := [], cb := .numv 2 }) =
        .error (.typeError "An event callback must be a function") :=
  ⟨(C5_next_validation (Hooter.init Unit)
      { type := .numv 1, mode := .strv "auto", args := [], cb := .undef } (.numv 3)).1,
    (C5_next_validation (Hooter.init Unit)
      { type := .numv 1, mode := .strv "auto", args := [], cb := .undef } (.numv 3)).2.1 rfl,
    (C5_next_validation (Hooter.init Unit)
      { type := .strv "a", mode := .strv "bad", args := [], cb := .undef } (.numv 3)).2.2.1 rfl rfl,
    (C5_next_validation (Hooter.init Unit)
      { type := .strv "a", mode := .strv "auto", args := [], cb := .numv 2 } (.numv 3)).2.2.2 rfl rfl rfl rfl⟩

theorem str_append_assoc (a b c : String) : (a ++ b) ++ c = a ++ (b ++ c) := by
  obtain ⟨la⟩ := a
  obtain ⟨lb⟩ := b
  obtain ⟨lc⟩ := c
  show String.mk ((la ++ lb) ++ lc) = String.mk (la ++ (lb ++ lc))
  rw [List.append_assoc]

/-- C1: on a locally processed emission the combined invocation list is the
matching before-hooks in insertion order, then the matching main hooks in
insertion order, then the matching after-hooks in reverse insertion order,
each bound to the event, with the callback appended as the final entry. -/
theorem C1_invocation_list (b : Bus F) (e : EventObj F) (t m : String)
    (hsrc : Bus.source b = none) (hpfx : Bus.pfxOf b = none)
    (hbf : (Bus.hookStoreBefore b).reversed = false)
    (hmn : (Bus.hookStore b).reversed = false)
    (haf : (Bus.hookStoreAfter b).reversed = true)
    (ht : e.type = .strv t) (hm : e.mode = .strv m)
    (hmode : modeOk e.mode = true)
    (hcb : (truthy e.cb && !(isFun e.cb)) = false) :
    Bus.next b (.obj e) =
      (let L :=
        (((Bus.hookStoreBefore b).hooks.filter (fun h => hooterMatch t h.pattern) ++
          (Bus.hookStore b).hooks.filter (fun h => hooterMatch t h.pattern) ++
          ((Bus.hookStoreAfter b).hooks.filter
            (fun h => hooterMatch t h.pattern)).reverse).map
            (fun h => Handler.bound h.fn e)) ++
          (if truthy e.cb then [Handler.plain e.cb] else []);
      .ok { broadcast := some e,
            callSeq := if L.isEmpty then none else some (m, L, e.args) }) := by
  obtain ⟨bf, mn, af, ev, pfx, src⟩ := b
  simp only [Bus.source] at hsrc
  simp only [Bus.pfxOf] at hpfx
  simp only [Bus.hookStoreBefore] at hbf
  simp only [Bus.hookStore] at hmn
  simp only [Bus.hookStoreAfter] at haf
  subst hsrc hpfx
  obtain ⟨ty, md, args, cb⟩ := e
  simp only at ht hm
  subst ht hm
  obtain ⟨bfh, bfr, bfi⟩ := bf
  obtain ⟨mnh, mnr, mni⟩ := mn
  obtain ⟨afh, afr, afi⟩ := af
  simp only at hbf hmn haf
  subst hbf hmn haf
  simp only [Bus.next, Bus.hookStoreBefore, Bus.hookStore, Bus.hookStoreAfter,
    hmode, if_true, hcb, Bool.false_eq_true, if_false, HookStore.get,
    if_neg, Bool.not_eq_true]
  cases htr : truthy (F := F) cb
  · simp [htr, List.append_assoc, strOf]
    split <;> simp_all
  · simp [htr, List.append_assoc, strOf]

/-- C6: with no matching hook and no callback, next returns without invoking
the sequencing capability while the broadcast still occurs; with a non-empty
list, the capability entry for the resolved mode receives the list and the
arguments. -/
theorem C6_empty_list_short_circuit (b : Bus F) (e : EventObj F) (t m : String)
    (hsrc : Bus.source b = none) (hpfx : Bus.pfxOf b = none)
    (ht : e.type = .strv t) (hm : e.mode = .strv m)
    (hmode : modeOk e.mode = true)
    (hcb : (truthy e.cb && !(isFun e.cb)) = false) :
    (let L := ((Bus.hookStoreBefore b).get t ++ (Bus.hookStore b).get t ++
        (Bus.hookStoreAfter b).get t).map (fun h => Handler.bound h.fn e) ++
      (if truthy e.cb then [Handler.plain e.cb] else []);
    (L = [] → Bus.next b (.obj e) = .ok { broadcast := some e, callSeq := none }) ∧
      (L ≠ [] → Bus.next b (.obj e) =
        .ok { broadcast := some e, callSeq := some (m, L, e.args) })) := by
  obtain ⟨bf, mn, af, ev, pfx, src⟩ := b
  simp only [Bus.source] at hsrc
  simp only [Bus.pfxOf] at hpfx
  subst hsrc hpfx
  obtain ⟨ty, md, args, cb⟩ := e
  simp only at ht hm
  subst ht hm
  simp only [Bus.next, Bus.hookStoreBefore, Bus.hookStore, Bus.hookStoreAfter,
    hmode, if_true, hcb, Bool.false_eq_true, if_false, strOf]
  cases htr : truthy (F := F) cb <;>
    constructor <;>
    intro hL <;>
    simp_all [List.isEmpty_iff, strOf]

def evC3 : EventObj Unit :=
  { type := .strv "x", mode := .strv "auto", args := [], cb := .undef }

/-- C3 counterexample: a bus derived with the empty-string prefix forwards
the envelope unchanged (line 112 of the source is a truthiness guard that
skips both the copy and the rewrite), so the broadcast carries the type x
and not the type the claim predicts, the empty prefix plus separator plus
x. -/
theorem C3_empty_prefix_counterexample :
    Bus.prefixed (Hooter.init Unit) (.strv "") =
        .ok (((Hooter.init Unit).lift).withPfx "") ∧
      Bus.next (((Hooter.init Unit).lift).withPfx "") (.obj evC3) =
        .ok { broadcast := some evC3, callSeq := none } ∧
      evC3.type = .strv "x" ∧ ("" ++ "." ++ "x" : String) ≠ "x" :=
  ⟨rfl, rfl, rfl, by decide⟩

/-- C3 (amended): prefix rejects non-strings with a TypeError and otherwise
derives a fresh delegating instance; an emission on a bus that delegates
with a non-empty rewrite forwards a shallow copy with the rewritten type to
the source, leaving the original envelope untouched and never consulting
the hook stores of the derived instance (they are universally quantified
here); with the empty-string rewrite the envelope is forwarded unchanged,
the truthiness guard of the source skipping both copy and rewrite. -/
theorem C3_prefixed_derivation (b d : Bus F) (v : JVal F) (p t : String)
    (e : EventObj F) :
    (isStr v = false →
      Bus.prefixed b v = .error (.typeError "A prefix must be a string")) ∧
    (Bus.prefixed b (.strv p) = .ok ((b.lift).withPfx p) ∧
      Bus.source ((b.lift).withPfx p) = some b ∧
      Bus.pfxOf ((b.lift).withPfx p) = some p ∧
      Bus.hookStoreBefore ((b.lift).withPfx p) = HookStore.empty false ∧
      Bus.hookStore ((b.lift).withPfx p) = HookStore.empty false ∧
      Bus.hookStoreAfter ((b.lift).withPfx p) = HookStore.empty true) ∧
    (Bus.source d = some b → Bus.pfxOf d = some p → p ≠ "" →
      e.type = .strv t → modeOk e.mode = true →
      (truthy e.cb && !(isFun e.cb)) = false →
      Bus.next d (.obj e) =
        Bus.next b (.obj { e with type := .strv (p ++ "." ++ t) })) ∧
    (Bus.source d = some b → Bus.pfxOf d = some "" →
      e.type = .strv t → modeOk e.mode = true →
      (truthy e.cb && !(isFun e.cb)) = false →
      Bus.next d (.obj e) = Bus.next b (.obj e)) := by
  refine ⟨?_, ⟨?_, rfl, rfl, rfl, rfl, rfl⟩, ?_, ?_⟩
  · intro hv
    cases v <;> simp [isStr] at hv ⊢ <;> rfl
  · rfl
  · intro hsrc hpfx hp ht hmode hcb
    obtain ⟨bf, mn, af, ev, pfx, src⟩ := d
    simp only [Bus.source] at hsrc
    simp only [Bus.pfxOf] at hpfx
    subst hsrc hpfx
    obtain ⟨ty, md, args, cb⟩ := e
    simp only at ht
    subst ht
    simp only [Bus.next, hmode, if_true, hcb, Bool.false_eq_true, if_false,
      if_neg hp]
  · intro hsrc hpfx ht hmode hcb
    obtain ⟨bf, mn, af, ev, pfx, src⟩ := d
    simp only [Bus.source] at hsrc
    simp only [Bus.pfxOf] at hpfx
    subst hsrc hpfx
    obtain ⟨ty, md, args, cb⟩ := e
    simp only at ht
    subst ht
    simp only [Bus.next, hmode, if_true, hcb, Bool.false_eq_true, if_false,
      if_pos rfl]

/-- C10 counterexample: with the empty string as the first prefix of the
chain the rewrite of that link is skipped, so the doubly derived bus
delivers the type b.x to the root, not the type the claim predicts, the
empty prefix plus separator plus b plus separator plus x. -/
theorem C10_empty_prefix_counterexample :
    (∃ d1 d2, Bus.prefixed (Hooter.init Unit) (.strv "") = .ok d1 ∧
      Bus.prefixed d1 (.strv "b") = .ok d2 ∧
      Bus.next d2 (.obj evC3) =
        .ok { broadcast := some { evC3 with type := .strv "b.x" },
              callSeq := none }) ∧
      ("" ++ "." ++ "b" ++ "." ++ "x" : String) ≠ "b.x" :=
  ⟨⟨((Hooter.init Unit).lift).withPfx "",
    (((((Hooter.init Unit).lift).withPfx "").lift).withPfx "b"),
    rfl, rfl, rfl⟩, by decide⟩

/-- C10 (amended): two derivations by non-empty prefixes compose, the
rewrite of the instance nearest the root ending leftmost: emitting a type
on the doubly derived bus delivers to the root an envelope typed with both
rewrites prepended in order; an empty prefix in the chain contributes
nothing because its rewrite is skipped. -/
theorem C10_prefix_composition (b : Bus F) (p q t : String) (e : EventObj F)
    (hp : p ≠ "") (hq : q ≠ "")
    (ht : e.type = .strv t) (hmode : modeOk e.mode = true)
    (hcb : (truthy e.cb && !(isFun e.cb)) = false) :
    ∃ d1 d2, Bus.prefixed b (.strv p) = .ok d1 ∧
      Bus.prefixed d1 (.strv q) = .ok d2 ∧
      Bus.next d2 (.obj e) =
        Bus.next b (.obj { e with type := .strv (p ++ "." ++ q ++ "." ++ t) }) := by
  refine ⟨(b.lift).withPfx p, (((b.lift).withPfx p).lift).withPfx q, rfl, rfl, ?_⟩
  obtain ⟨ty, md, args, cb⟩ := e
  simp only at ht
  subst ht
  simp only [Bus.lift, Bus.withPfx, Bus.next, hmode, if_true, hcb,
    Bool.false_eq_true, if_false, if_neg hq, if_neg hp]
  simp only [str_append_assoc]

/-- C2 counterexample: on a registered event, supplying the non-null custom
mode consisting of the empty string does not fail (the source only checks
mode truthiness), so the emission proceeds with the registered mode. -/
theorem C2_registered_override_counterexample :
    ((Hooter.init Unit).register (.strv "ev") (.strv "sync")).1.tootCore
        "ev" (some "") [] none =
      .ok { broadcast := some (createEvent "ev" "sync" [] none),
            callSeq := none } := rfl

/-- C2 (amended): a registered event tooted with a truthy custom mode fails
with an Error before the envelope is built; with a falsy custom mode (null
or the empty string) the registered mode is used; an unregistered event with
no supplied mode defaults to auto. -/
theorem C2_toot_mode_resolution (b : Bus F) (t rm : String) (mode : Option String)
    (args : List (JVal F)) (cb : Option F) :
    ((Bus.events b).lookup t = some rm →
      (optTruthy mode = true →
        b.tootCore t mode args cb =
          .error (.error ("Event \"" ++ t ++
            "\" is a registered event and should not be tooted with a custom mode"))) ∧
      (optTruthy mode = false →
        b.tootCore t mode args cb = b.next (.obj (createEvent t rm args cb)))) ∧
    ((Bus.events b).lookup t = none → mode = none →
      b.tootCore t mode args cb = b.next (.obj (createEvent t "auto" args cb))) := by
  refine ⟨fun hreg => ⟨fun hm => ?_, fun hm => ?_⟩, fun hreg hm => ?_⟩
  · simp [Bus.tootCore, hreg, hm]
  · simp [Bus.tootCore, hreg, hm]
  · subst hm
    simp [Bus.tootCore, hreg]

theorem C2_toot_mode_resolution_witness :
    ((Hooter.init Unit).register (.strv "ev") (.strv "sync")).1.tootCore
        "ev" (some "async") [] none =
      .error (.error "Event \"ev\" is a registered event and should not be tooted with a custom mode") ∧
    ((Hooter.init Unit).register (.strv "ev") (.strv "sync")).1.tootCore
        "ev" none [] none =
      .ok { broadcast := some (createEvent "ev" "sync" [] none), callSeq := none } ∧
    (Hooter.init Unit).tootCore "other" none [] none =
      .ok { broadcast := some (createEvent "other" "auto" [] none), callSeq := none } :=
  ⟨((C2_toot_mode_resolution
      ((Hooter.init Unit).register (.strv "ev") (.strv "sync")).1
      "ev" "sync" (some "async") [] none).1 rfl).1 rfl,
    (((C2_toot_mode_resolution
      ((Hooter.init Unit).register (.strv "ev") (.strv "sync")).1
      "ev" "sync" none [] none).1 rfl).2 rfl).trans rfl,
    ((C2_toot_mode_resolution (Hooter.init Unit)
      "other" "sync" none [] none).2 rfl rfl).trans rfl⟩

theorem lookup_append_of_none {β : Type} (l l2 : List (String × β)) (k : String)
    (h : l.lookup k = none) : (l ++ l2).lookup k = l2.lookup k := by
  induction l with
  | nil => rfl
  | cons a l ih =>
    obtain ⟨a1, a2⟩ := a
    by_cases hk : (k == a1) = true
    · simp [List.lookup, hk] at h
    · have hk2 : (k == a1) = false := by simpa using hk
      simp only [List.cons_append, List.lookup, hk2] at h ⊢
      exact ih h

theorem events_withEvents (b : Bus F) (l : List (String × String)) :
    Bus.events (b.withEvents l) = l := by
  obtain ⟨bf, mn, af, ev, pfx, src⟩ := b
  rfl

/-- C7: register rejects a non-string or empty event type, a duplicate
registration and an unrecognized mode, each with an Error that leaves the
registry untouched (in particular the first registration stays intact);
otherwise it stores the mode under the event type. -/
theorem C7_register_validation (b : Bus F) (ev md : JVal F) (s ms : String) :
    ((isStr ev = false ∨ ev = .strv "") →
      b.register ev md =
        (b, some (.error "An event type must be a non-empty string"))) ∧
    (ev = .strv s → s ≠ "" → ((Bus.events b).lookup s).isSome = true →
      b.register ev md =
        (b, some (.error ("Event \"" ++ s ++ "\" is already registered")))) ∧
    (ev = .strv s → s ≠ "" → (Bus.events b).lookup s = none → modeOk md = false →
      b.register ev md =
        (b, some (.error "A mode must be one of the following:"))) ∧
    (ev = .strv s → s ≠ "" → (Bus.events b).lookup s = none → md = .strv ms →
      MODES.contains ms = true →
      b.register ev md = (b.withEvents (Bus.events b ++ [(s, ms)]), none) ∧
        (Bus.events ((b.register ev md).1)).lookup s = some ms) := by
  refine ⟨fun h => ?_, fun h1 h2 h3 => ?_, fun h1 h2 h3 h4 => ?_,
    fun h1 h2 h3 h4 h5 => ?_⟩
  · rcases h with h | h
    · cases ev <;> simp [isStr] at h ⊢ <;> rfl
    · subst h
      simp [Bus.register]
  · subst h1
    obtain ⟨v, hv⟩ := Option.isSome_iff_exists.mp h3
    simp [Bus.register, h2, hv]
  · subst h1
    simp [Bus.register, h2, h3, h4]
  · subst h1
    subst h4
    have hmOk : modeOk (F := F) (.strv ms) = true := h5
    have hreg : b.register (.strv s) (.strv ms) =
        (b.withEvents (Bus.events b ++ [(s, ms)]), none) := by
      simp [Bus.register, h2, h3, hmOk, strOf]
    refine ⟨hreg, ?_⟩
    rw [hreg]
    simp only [events_withEvents]
    rw [lookup_append_of_none _ _ _ h3]
    simp [List.lookup]

theorem C7_register_validation_witness :
    (Hooter.init Unit).register (.numv 5) (.strv "sync") =
        (Hooter.init Unit, some (.error "An event type must be a non-empty string")) ∧
      ((Hooter.init Unit).register (.strv "ev") (.strv "sync")).1.register
          (.strv "ev") (.strv "auto") =
        (((Hooter.init Unit).register (.strv "ev") (.strv "sync")).1,
          some (.error "Event \"ev\" is already registered")) ∧
      (Hooter.init Unit).register (.strv "ev") (.strv "weird") =
        (Hooter.init Unit, some (.error "A mode must be one of the following:")) ∧
      (Bus.events (((Hooter.init Unit).register (.strv "ev") (.strv "sync")).1)).lookup
          "ev" = some "sync" :=
  ⟨(C7_register_validation (Hooter.init Unit) (.numv 5) (.strv "sync") "x" "x").1
      (Or.inl rfl),
    (C7_register_validation ((Hooter.init Unit).register (.strv "ev") (.strv "sync")).1
      (.strv "ev") (.strv "auto") "ev" "x").2.1 rfl (by decide) rfl,
    (C7_register_validation (Hooter.init Unit) (.strv "ev") (.strv "weird") "ev" "x").2.2.1
      rfl (by decide) rfl rfl,
    ((C7_register_validation (Hooter.init Unit) (.strv "ev") (.strv "sync") "ev" "sync").2.2.2
      rfl (by decide) rfl rfl rfl).2⟩

theorem next_bad_type (b : Bus F) (e : EventObj F) (h : isStr e.type = false) :
    Bus.next b (.obj e) = .error (.typeError "An event type must be a string") := by
  obtain ⟨bf, mn, af, ev, pfx, src⟩ := b
  cases hty : e.type <;> simp [hty, isStr] at h ⊢ <;> simp [Bus.next, hty]

/-- C8 counterexample: an envelope whose type is the empty string is accepted
both by next and by toot (the source only checks that the type is a string),
contradicting the claim that empty-type emissions fail. -/
theorem C8_empty_type_accepted_counterexample :
    Bus.next (Hooter.init Unit)
        (.obj { type := .strv "", mode := .strv "auto", args := [], cb := .undef }) =
      .ok { broadcast :=
              some { type := .strv "", mode := .strv "auto", args := [], cb := .undef },
            callSeq := none } ∧
    (Hooter.init Unit).toot "" [] =
      .ok { broadcast := some (createEvent "" "auto" [] none), callSeq := none } :=
  ⟨rfl, rfl⟩

/-- C8 (amended): every envelope accepted for emission has a string type —
a non-string type fails with a TypeError in every mode — but the empty
string is not rejected: emitting it succeeds. -/
theorem C8_type_string_not_necessarily_nonempty (b : Bus F) (e : EventObj F) :
    (isStr e.type = false →
      Bus.next b (.obj e) = .error (.typeError "An event type must be a string")) ∧
    (∀ o, Bus.next b (.obj e) = .ok o → isStr e.type = true) ∧
    (Hooter.init F).toot "" [] =
      .ok { broadcast := some (createEvent "" "auto" [] none), callSeq := none } := by
  refine ⟨next_bad_type b e, fun o ho => ?_, rfl⟩
  by_contra hc
  rw [next_bad_type b e (by simpa using hc)] at ho
  exact Except.noConfusion ho

theorem C8_type_string_not_necessarily_nonempty_witness :
    Bus.next (Hooter.init Unit)
        (.obj { type := .boolv true, mode := .strv "auto", args := [], cb := .undef }) =
      .error (.typeError "An event type must be a string") ∧
    isStr (F := Unit) (JVal.strv "") = true :=
  ⟨(C8_type_string_not_necessarily_nonempty (Hooter.init Unit)
      { type := .boolv true, mode := .strv "auto", args := [], cb := .undef }).1 rfl,
    (C8_type_string_not_necessarily_nonempty (Hooter.init Unit)
      { type := .strv "", mode := .strv "auto", args := [], cb := .undef }).2.1
      { broadcast :=
          some { type := .strv "", mode := .strv "auto", args := [], cb := .undef },
        callSeq := none } rfl⟩

def busW1 : Bus Nat :=
  .mk ⟨[⟨0, "a", 10⟩], false, 1⟩ (HookStore.empty false)
    ⟨[⟨1, "**", 21⟩, ⟨2, "**", 22⟩], true, 3⟩ [] none none

def evW1 : EventObj Nat :=
  { type := .strv "a", mode := .strv "sync", args := [.numv 7], cb := .funv 99 }

theorem C1_invocation_list_witness :
    Bus.next busW1 (.obj evW1) =
      .ok { broadcast := some evW1,
            callSeq := some ("sync",
              [.bound 10 evW1, .bound 22 evW1, .bound 21 evW1, .plain (.funv 99)],
              [.numv 7]) } :=
  (C1_invocation_list busW1 evW1 "a" "sync" rfl rfl rfl rfl rfl rfl rfl
    (by decide) (by decide)).trans rfl

def busW6 : Bus Unit :=
  .mk (HookStore.empty false) ⟨[⟨0, "**", ()⟩], false, 1⟩ (HookStore.empty true)
    [] none none

def evW6 : EventObj Unit :=
  { type := .strv "x", mode := .strv "auto", args := [], cb := .undef }

def evW6b : EventObj Unit :=
  { type := .strv "x", mode := .strv "async", args := [], cb := .undef }

theorem C6_empty_list_short_circuit_witness :
    Bus.next (Hooter.init Unit) (.obj evW6) =
        .ok { broadcast := some evW6, callSeq := none } ∧
      Bus.next busW6 (.obj evW6b) =
        .ok { broadcast := some evW6b,
              callSeq := some ("async", [.bound () evW6b], []) } :=
  ⟨(C6_empty_list_short_circuit (Hooter.init Unit) evW6 "x" "auto" rfl rfl rfl rfl
      (by decide) (by decide)).1 rfl,
    ((C6_empty_list_short_circuit busW6 evW6b "x" "async" rfl rfl rfl rfl
      (by decide) (by decide)).2 (by decide)).trans rfl⟩

def busW3 : Bus Unit := ((Hooter.init Unit).lift).withPfx "pre"

def busW3e : Bus Unit := ((Hooter.init Unit).lift).withPfx ""

theorem C3_prefixed_derivation_witness :
    Bus.prefixed (Hooter.init Unit) (.numv 1) =
        .error (.typeError "A prefix must be a string") ∧
      Bus.next busW3 (.obj evW6) =
        .ok { broadcast :=
                some { type := .strv "pre.x", mode := .strv "auto",
                       args := [], cb := .undef },
              callSeq := none } ∧
      Bus.next busW3e (.obj evW6) =
        .ok { broadcast := some evW6, callSeq := none } :=
  ⟨(C3_prefixed_derivation (Hooter.init Unit) busW3 (.numv 1) "pre" "x" evW6).1 rfl,
    ((C3_prefixed_derivation (Hooter.init Unit) busW3 (.numv 1) "pre" "x" evW6).2.2.1
      rfl rfl (by decide) rfl (by decide) (by decide)).trans rfl,
    ((C3_prefixed_derivation (Hooter.init Unit) busW3e (.numv 1) "" "x" evW6).2.2.2
      rfl rfl rfl (by decide) (by decide)).trans rfl⟩

theorem C10_prefix_composition_witness :
    ∃ d1 d2, Bus.prefixed (Hooter.init Unit) (.strv "a") = .ok d1 ∧
      Bus.prefixed d1 (.strv "b") = .ok d2 ∧
      Bus.next d2 (.obj evW6) =
        Bus.next (Hooter.init Unit)
          (.obj { evW6 with type := .strv ("a" ++ "." ++ "b" ++ "." ++ "x") }) :=
  C10_prefix_composition (Hooter.init Unit) "a" "b" "x" evW6 (by decide) (by decide)
    rfl (by decide) (by decide)
